import Mathlib

/-!
Shallow embedding of the fleshrecord service (a Flask gateway in front of a
Firefly III ledger) and proofs about its webhook signature verification,
budget-limit fallback chain, transaction query filtering, request validation,
retry wrapper and report scheduler.

Strings manipulated by the Python code are modelled as `List Char`; byte
strings as `List Nat` (one entry per byte, each below 256); Python floats
that only ever hold decimal amounts as `ℚ`; raised exceptions as `Except` /
`Option` values.
-/

namespace WebhookVerify

/-- Model of Python `str.split(sep)` for a one-character separator `c`:
splits at every occurrence of `c`, keeping empty pieces, and returns `[[]]`
on the empty string. -/
def splitList (c : Char) : List Char → List (List Char)
  | [] => [[]]
  | x :: xs =>
    if x = c then [] :: splitList c xs
    else
      match splitList c xs with
      | [] => [[x]]
      | y :: ys => (x :: y) :: ys

/-- `splitList` never returns the empty list. -/
theorem splitList_ne_nil (c : Char) (xs : List Char) : splitList c xs ≠ [] := by
  induction xs with
  | nil => simp [splitList]
  | cons x xs ih =>
    by_cases h : x = c
    · simp [splitList, h]
    · simp only [splitList, if_neg h]
      cases hs : splitList c xs with
      | nil => simp
      | cons y ys => simp

/-- Splitting a string with no separator occurrence yields a single piece. -/
theorem splitList_of_not_mem (c : Char) (xs : List Char) (h : c ∉ xs) :
    splitList c xs = [xs] := by
  induction xs with
  | nil => rfl
  | cons x xs ih =>
    simp only [List.mem_cons, not_or] at h
    have hx : ¬ x = c := fun hxc => h.1 hxc.symm
    simp only [splitList, if_neg hx, ih h.2]

/-- Splitting at the first separator occurrence detaches the prefix. -/
theorem splitList_append_cons (c : Char) (xs ys : List Char) (h : c ∉ xs) :
    splitList c (xs ++ c :: ys) = xs :: splitList c ys := by
  induction xs with
  | nil => simp [splitList]
  | cons x xs ih =>
    simp only [List.mem_cons, not_or] at h
    have hx : ¬ x = c := fun hxc => h.1 hxc.symm
    simp only [List.cons_append, splitList, if_neg hx]
    rw [show xs.append (c :: ys) = xs ++ c :: ys from rfl, ih h.2]

/-- One `key=value` component of the signature header: Python's
`part.split('=')` feeding the `dict(...)` constructor, which raises unless
the split has exactly two pieces. -/
def pairOfPart (p : List Char) : Option (List Char × List Char) :=
  match splitList '=' p with
  | [k, v] => some (k, v)
  | _ => none

/-- Collect the `key=value` pairs of all components, failing as soon as one
component is malformed. -/
def parsePartsList : List (List Char) → Option (List (List Char × List Char))
  | [] => some []
  | p :: rest =>
    match pairOfPart p, parsePartsList rest with
    | some kv, some kvs => some (kv :: kvs)
    | _, _ => none

/-- Parse the whole header into the `signature_parts` dictionary entries:
`dict(part.split('=') for part in signature_header.split(','))`.  `none`
models the `ValueError` the `dict` constructor raises on a component that
does not split into exactly two pieces. -/
def parseParts (header : List Char) : Option (List (List Char × List Char)) :=
  parsePartsList (splitList ',' header)

/-- Python `dict` lookup over the entry list: a later occurrence of the same
key overwrites an earlier one. -/
def dictGet (ps : List (List Char × List Char)) (k : List Char) :
    Option (List Char) :=
  match ps with
  | [] => none
  | (k', v) :: rest =>
    match dictGet rest k with
    | some v' => some v'
    | none => if k' = k then some v else none

/-- UTF-8 encoding of one code point, as `str.encode('utf-8')` produces. -/
def utf8Char (c : Char) : List Nat :=
  let n := c.toNat
  if n < 128 then [n]
  else if n < 2048 then [192 + n / 64, 128 + n % 64]
  else if n < 65536 then [224 + n / 4096, 128 + (n / 64) % 64, 128 + n % 64]
  else [240 + n / 262144, 128 + (n / 4096) % 64, 128 + (n / 64) % 64,
        128 + n % 64]

/-- UTF-8 encoding of a whole string. -/
def utf8 (s : List Char) : List Nat := s.flatMap utf8Char

/-- Webhook secrets drawn from the configuration: `webhook_secret` is the
primary key, `webhook_secret_update` the rotation key. -/
structure WebhookConfig where
  webhook_secret : List Char
  webhook_secret_update : List Char

/-- The signed message: `f'{timestamp}.'.encode('utf-8') + payload`. -/
def signedPayload (timestamp : List Char) (payload : List Nat) : List Nat :=
  utf8 (timestamp ++ ['.']) ++ payload

/-- `WebhookHandler._compute_signature_match`: hex-encoded HMAC-SHA3-256 under
each configured secret, accepted when either digest equals the received
signature.  The HMAC primitive itself is a parameter `hmacHex` (key bytes and
message bytes to hex digest characters); `hmac.compare_digest` on equal-typed
inputs decides string equality in constant time, modelled as equality. -/
def computeSignatureMatch (hmacHex : List Nat → List Nat → List Char)
    (cfg : WebhookConfig) (payload : List Nat)
    (timestamp received : List Char) : Bool :=
  let msg := signedPayload timestamp payload
  decide (hmacHex (utf8 cfg.webhook_secret) msg = received) ||
  decide (hmacHex (utf8 cfg.webhook_secret_update) msg = received)

/-- The body of the `try` block of `WebhookHandler.verify_signature`: parse
the header, check the `v1` and `t` components are present, and compare
signatures.  `none` models an exception escaping the block. -/
def verifySignatureTry (hmacHex : List Nat → List Nat → List Char)
    (cfg : WebhookConfig) (payload : List Nat) (header : List Char) :
    Option Bool :=
  match parseParts header with
  | none => none
  | some ps =>
    match dictGet ps "v1".data, dictGet ps "t".data with
    | some received, some timestamp =>
      some (computeSignatureMatch hmacHex cfg payload timestamp received)
    | _, _ => some false

/-- `WebhookHandler.verify_signature`: an empty header is rejected up front,
and any exception inside the `try` block is caught and turned into `False`. -/
def verify_signature (hmacHex : List Nat → List Nat → List Char)
    (cfg : WebhookConfig) (payload : List Nat) (header : List Char) : Bool :=
  if header.isEmpty then false
  else
    match verifySignatureTry hmacHex cfg payload header with
    | none => false
    | some b => b

/-- A well-formed header of the shape `v1=<hex>,t=<ts>` parses into exactly
the two expected dictionary entries. -/
theorem parseParts_header (hex ts : List Char)
    (h1 : ',' ∉ hex) (h2 : '=' ∉ hex) (h3 : ',' ∉ ts) (h4 : '=' ∉ ts) :
    parseParts ("v1=".data ++ hex ++ ",t=".data ++ ts) =
      some [("v1".data, hex), ("t".data, ts)] := by
  have e1 : "v1=".data ++ hex ++ ",t=".data ++ ts
      = (['v', '1', '='] ++ hex) ++ ',' :: (['t', '='] ++ ts) := by
    simp [show "v1=".data = ['v', '1', '='] from rfl,
      show ",t=".data = [',', 't', '='] from rfl]
  have hm1 : ',' ∉ ['v', '1', '='] ++ hex := by
    simp only [List.mem_append, not_or]
    exact ⟨by decide, h1⟩
  have hm2 : ',' ∉ ['t', '='] ++ ts := by
    simp only [List.mem_append, not_or]
    exact ⟨by decide, h3⟩
  have p1 : pairOfPart ('v' :: '1' :: '=' :: hex) = some ("v1".data, hex) := by
    rw [show ('v' :: '1' :: '=' :: hex) = ['v', '1'] ++ '=' :: hex from rfl,
      pairOfPart, splitList_append_cons '=' _ _ (by decide),
      splitList_of_not_mem '=' hex h2]
  have p2 : pairOfPart ('t' :: '=' :: ts) = some ("t".data, ts) := by
    rw [show ('t' :: '=' :: ts) = ['t'] ++ '=' :: ts from rfl,
      pairOfPart, splitList_append_cons '=' _ _ (by decide),
      splitList_of_not_mem '=' ts h4]
  rw [e1, parseParts, splitList_append_cons ',' _ _ hm1,
    splitList_of_not_mem ',' _ hm2]
  simp [parsePartsList, p1, p2]

/-- For a well-formed `v1=<hex>,t=<ts>` header, verification succeeds exactly
when the received hex digest equals the HMAC digest under the primary or the
rotation secret. -/
theorem verify_signature_iff (hmacHex : List Nat → List Nat → List Char)
    (cfg : WebhookConfig) (payload : List Nat) (hex ts : List Char)
    (h1 : ',' ∉ hex) (h2 : '=' ∉ hex) (h3 : ',' ∉ ts) (h4 : '=' ∉ ts) :
    verify_signature hmacHex cfg payload ("v1=".data ++ hex ++ ",t=".data ++ ts)
        = true ↔
      hex = hmacHex (utf8 cfg.webhook_secret) (signedPayload ts payload) ∨
      hex = hmacHex (utf8 cfg.webhook_secret_update) (signedPayload ts payload)
    := by
  have hparse := parseParts_header hex ts h1 h2 h3 h4
  have hne : ("v1=".data ++ hex ++ ",t=".data ++ ts).isEmpty = false := by
    simp [show "v1=".data = ['v', '1', '='] from rfl, List.isEmpty]
  rw [verify_signature, hne]
  simp only [Bool.false_eq_true, if_false, verifySignatureTry, hparse]
  have hv1 : dictGet [("v1".data, hex), ("t".data, ts)] "v1".data = some hex :=
    rfl
  have ht : dictGet [("v1".data, hex), ("t".data, ts)] "t".data = some ts :=
    rfl
  rw [hv1, ht]
  simp only [computeSignatureMatch, Bool.or_eq_true, decide_eq_true_eq]
  constructor
  · rintro (h | h) <;> [exact Or.inl h.symm; exact Or.inr h.symm]
  · rintro (h | h) <;> [exact Or.inl h.symm; exact Or.inr h.symm]

end WebhookVerify

/-- C1: for a fixed raw body and timestamp `t`, a header `v1=<hex>,t=<ts>`
verifies exactly when the hex value equals the HMAC digest of the string
`t` followed by a dot and the raw body, computed under the primary webhook
secret or under the rotation secret; in particular a digest produced with any
third key that collides with neither configured digest fails verification. -/
theorem C1_webhook_signature_verification
    (hmacHex : List Nat → List Nat → List Char)
    (cfg : WebhookVerify.WebhookConfig) (payload : List Nat)
    (hex ts : List Char)
    (h1 : ',' ∉ hex) (h2 : '=' ∉ hex) (h3 : ',' ∉ ts) (h4 : '=' ∉ ts) :
    (WebhookVerify.verify_signature hmacHex cfg payload
        ("v1=".data ++ hex ++ ",t=".data ++ ts) = true ↔
      hex = hmacHex (WebhookVerify.utf8 cfg.webhook_secret)
          (WebhookVerify.signedPayload ts payload) ∨
      hex = hmacHex (WebhookVerify.utf8 cfg.webhook_secret_update)
          (WebhookVerify.signedPayload ts payload)) ∧
    (∀ key3,
      ',' ∉ hmacHex key3 (WebhookVerify.signedPayload ts payload) →
      '=' ∉ hmacHex key3 (WebhookVerify.signedPayload ts payload) →
      hmacHex key3 (WebhookVerify.signedPayload ts payload) ≠
        hmacHex (WebhookVerify.utf8 cfg.webhook_secret)
          (WebhookVerify.signedPayload ts payload) →
      hmacHex key3 (WebhookVerify.signedPayload ts payload) ≠
        hmacHex (WebhookVerify.utf8 cfg.webhook_secret_update)
          (WebhookVerify.signedPayload ts payload) →
      WebhookVerify.verify_signature hmacHex cfg payload
        ("v1=".data ++ hmacHex key3 (WebhookVerify.signedPayload ts payload)
          ++ ",t=".data ++ ts) = false) := by
  constructor
  · exact WebhookVerify.verify_signature_iff hmacHex cfg payload hex ts
      h1 h2 h3 h4
  · intro key3 hc he hn1 hn2
    have hiff := WebhookVerify.verify_signature_iff hmacHex cfg payload
      (hmacHex key3 (WebhookVerify.signedPayload ts payload)) ts hc he h3 h4
    rw [← Bool.not_eq_true]
    intro htrue
    rcases hiff.mp htrue with h | h
    · exact hn1 h
    · exact hn2 h

/-- C10: `verify_signature` is total over arbitrary header input — the guard
and the exception handler turn every malformed header (parse failure, missing
`v1` or `t` component, empty string) into the boolean `false`, and the result
is `true` only when the received `v1` value equals the digest under one of
the two configured secrets. -/
theorem C10_verify_signature_total
    (hmacHex : List Nat → List Nat → List Char)
    (cfg : WebhookVerify.WebhookConfig) (payload : List Nat)
    (header : List Char) :
    (WebhookVerify.verifySignatureTry hmacHex cfg payload header = none →
      WebhookVerify.verify_signature hmacHex cfg payload header = false) ∧
    (WebhookVerify.verify_signature hmacHex cfg payload header = true →
      ∃ ps received timestamp,
        WebhookVerify.parseParts header = some ps ∧
        WebhookVerify.dictGet ps "v1".data = some received ∧
        WebhookVerify.dictGet ps "t".data = some timestamp ∧
        (hmacHex (WebhookVerify.utf8 cfg.webhook_secret)
            (WebhookVerify.signedPayload timestamp payload) = received ∨
         hmacHex (WebhookVerify.utf8 cfg.webhook_secret_update)
            (WebhookVerify.signedPayload timestamp payload) = received)) ∧
    WebhookVerify.verify_signature hmacHex cfg payload [] = false ∧
    WebhookVerify.verify_signature hmacHex cfg payload "abc".data = false ∧
    WebhookVerify.verify_signature hmacHex cfg payload "v1=a=b,t=1".data
      = false ∧
    WebhookVerify.verify_signature hmacHex cfg payload "x=1,y=2".data
      = false := by
  refine ⟨?_, ?_, rfl, rfl, rfl, rfl⟩
  · intro hnone
    rw [WebhookVerify.verify_signature]
    by_cases hempty : header.isEmpty
    · simp [hempty]
    · simp only [hempty, Bool.false_eq_true, if_false, hnone]
  · intro htrue
    rw [WebhookVerify.verify_signature] at htrue
    by_cases hempty : header.isEmpty
    · simp [hempty] at htrue
    · simp only [hempty, Bool.false_eq_true, if_false] at htrue
      rw [WebhookVerify.verifySignatureTry] at htrue
      cases hparse : WebhookVerify.parseParts header with
      | none => simp only [hparse] at htrue; cases htrue
      | some ps =>
        simp only [hparse] at htrue
        cases hv1 : WebhookVerify.dictGet ps "v1".data with
        | none =>
          cases ht : WebhookVerify.dictGet ps "t".data with
          | none => simp only [hv1, ht] at htrue; cases htrue
          | some timestamp => simp only [hv1, ht] at htrue; cases htrue
        | some received =>
          cases ht : WebhookVerify.dictGet ps "t".data with
          | none => simp only [hv1, ht] at htrue; cases htrue
          | some timestamp =>
            simp only [hv1, ht] at htrue
            refine ⟨ps, received, timestamp, rfl, hv1, ht, ?_⟩
            simpa [WebhookVerify.computeSignatureMatch] using htrue

/-- Witness for C10 at concrete inputs: a header with no separator at all is
rejected via the exception path. -/
theorem C10_verify_signature_total_witness :
    WebhookVerify.verify_signature (fun _ _ => ['x'])
      ⟨"s1".data, "s2".data⟩ [] "nonsense".data = false :=
  (C10_verify_signature_total (fun _ _ => ['x'])
      ⟨"s1".data, "s2".data⟩ [] "nonsense".data).1 rfl

/-- Witness for C1 at a concrete instantiation: a constant digest function,
empty payload, timestamp `1`; the received value equals the primary digest,
so verification succeeds. -/
theorem C1_webhook_signature_verification_witness :
    WebhookVerify.verify_signature (fun _ _ => ['x'])
      ⟨"s1".data, "s2".data⟩ []
      ("v1=".data ++ ['x'] ++ ",t=".data ++ "1".data) = true :=
  (C1_webhook_signature_verification (fun _ _ => ['x'])
      ⟨"s1".data, "s2".data⟩ [] ['x'] "1".data
      (by decide) (by decide) (by decide) (by decide)).1.mpr (Or.inl rfl)

namespace FireflyBudget

/-- The budget-limit dictionaries built by the three strategies of
`FireflyService.get_budget_limits`.  Firefly amounts are parsed with
Python `float(...)`; the decimal values involved are modelled as `ℚ`. -/
structure BudgetLimits where
  total_limit : ℚ
  current_limit : ℚ
deriving DecidableEq

/-- The outcome of one retrieval strategy as observed by the fallback loop:
an exception escaping the strategy (`Except.error`), a `None` result, or a
limits dictionary. -/
def StratOutcome : Type := Except Unit (Option BudgetLimits)

/-- `FireflyService.get_budget_limits`: try each strategy in order and return
the first result that is truthy with a strictly positive `total_limit`;
exceptions are caught and the loop continues; when every strategy is
exhausted, return the zero-limits dictionary. -/
def get_budget_limits : List StratOutcome → BudgetLimits
  | [] => ⟨0, 0⟩
  | (Except.ok (some r)) :: rest =>
    if r.total_limit > 0 then r else get_budget_limits rest
  | _ :: rest => get_budget_limits rest

/-- One entry of the `/available_budgets` response as read by strategy 3:
its `id`, its `spent` array (absent key modelled as `none`, entries reduced
to their parsed `sum`), and its parsed `auto_budget_amount` (the Python code
defaults a missing amount to `0` before `float`). -/
structure AvailableBudget where
  id : String
  spent : Option (List ℚ)
  auto_budget_amount : ℚ
deriving DecidableEq

/-- The synthetic limit strategy 3 derives from a matching entry:
`auto_budget_amount * 4` when an auto-budget amount is configured (greater
than zero), else the fixed fallback `1000`. -/
def fallback_limit (b : AvailableBudget) : ℚ :=
  if b.auto_budget_amount > 0 then b.auto_budget_amount * 4 else 1000

/-- `FireflyService._get_available_budgets` (strategy 3) applied to a decoded
`/available_budgets` response: find the first entry whose `id` equals the
budget ID; reading `spent[0]` raises `IndexError` when the `spent` key holds
an empty array; otherwise the synthetic limit is used as both `total_limit`
and `current_limit`; with no matching entry the strategy returns `None`. -/
def get_available_budgets (data : List AvailableBudget) (budget_id : String) :
    StratOutcome :=
  match data.find? (fun b => b.id == budget_id) with
  | some b =>
    if b.spent = some [] then Except.error ()
    else Except.ok (some ⟨fallback_limit b, fallback_limit b⟩)
  | none => Except.ok none

/-- A strategy outcome the fallback loop skips: an exception, a `None`
result, or a dictionary without a strictly positive `total_limit`. -/
def stratFails : StratOutcome → Prop
  | Except.error _ => True
  | Except.ok none => True
  | Except.ok (some r) => ¬ r.total_limit > 0

instance (o : StratOutcome) : Decidable (stratFails o) := by
  unfold stratFails
  cases o with
  | error e => exact inferInstanceAs (Decidable True)
  | ok v =>
    cases v with
    | none => exact inferInstanceAs (Decidable True)
    | some r => exact inferInstanceAs (Decidable (¬ _ > 0))

/-- Skipped outcomes do not affect the fallback loop's result. -/
theorem get_budget_limits_skip (o : StratOutcome) (rest : List StratOutcome)
    (h : stratFails o) :
    get_budget_limits (o :: rest) = get_budget_limits rest := by
  cases o with
  | error e => rfl
  | ok v =>
    cases v with
    | none => rfl
    | some r =>
      simp only [stratFails] at h
      simp [get_budget_limits, h]

end FireflyBudget

/-- C2: when strategy 1 and strategy 2 both yield no data and the
`/available_budgets` response has an entry matching the budget ID (with a
readable `spent` array), `get_budget_limits` returns the synthetic limit —
`auto_budget_amount * 4` when the amount is positive and `1000` otherwise —
as both `total_limit` and `current_limit`; for `auto_budget_amount = 250`
both limits are `1000`. -/
theorem C2_available_budgets_fallback
    (s1 s2 : FireflyBudget.StratOutcome)
    (data : List FireflyBudget.AvailableBudget) (bid : String)
    (b : FireflyBudget.AvailableBudget)
    (h1 : s1 = Except.error () ∨ s1 = Except.ok none)
    (h2 : s2 = Except.error () ∨ s2 = Except.ok none)
    (hfind : data.find? (fun x => x.id == bid) = some b)
    (hspent : b.spent ≠ some []) :
    FireflyBudget.get_budget_limits
        [s1, s2, FireflyBudget.get_available_budgets data bid] =
      ⟨FireflyBudget.fallback_limit b, FireflyBudget.fallback_limit b⟩ ∧
    (b.auto_budget_amount > 0 →
      FireflyBudget.fallback_limit b = b.auto_budget_amount * 4) ∧
    (¬ b.auto_budget_amount > 0 → FireflyBudget.fallback_limit b = 1000) ∧
    (b.auto_budget_amount = 250 → FireflyBudget.fallback_limit b = 1000) := by
  have hs1 : FireflyBudget.stratFails s1 := by
    rcases h1 with h | h <;> simp [h, FireflyBudget.stratFails]
  have hs2 : FireflyBudget.stratFails s2 := by
    rcases h2 with h | h <;> simp [h, FireflyBudget.stratFails]
  have hpos : FireflyBudget.fallback_limit b > 0 := by
    rw [FireflyBudget.fallback_limit]
    by_cases hb : b.auto_budget_amount > 0
    · rw [if_pos hb]; positivity
    · rw [if_neg hb]; norm_num
  refine ⟨?_, ?_, ?_, ?_⟩
  · rw [FireflyBudget.get_budget_limits_skip s1 _ hs1,
      FireflyBudget.get_budget_limits_skip s2 _ hs2]
    simp only [FireflyBudget.get_available_budgets, hfind, if_neg hspent]
    simp [FireflyBudget.get_budget_limits, hpos]
  · intro hb; rw [FireflyBudget.fallback_limit, if_pos hb]
  · intro hb; rw [FireflyBudget.fallback_limit, if_neg hb]
  · intro hb; rw [FireflyBudget.fallback_limit, hb]; norm_num

/-- Witness for C2: both earlier strategies fail, the response has one
matching entry with an auto-budget amount of 250, and the result is the
synthetic limit 1000. -/
theorem C2_available_budgets_fallback_witness :
    FireflyBudget.get_budget_limits
        [Except.error (), Except.ok none,
         FireflyBudget.get_available_budgets
           [⟨"7", some [0], 250⟩] "7"] =
      ⟨FireflyBudget.fallback_limit ⟨"7", some [0], 250⟩,
       FireflyBudget.fallback_limit ⟨"7", some [0], 250⟩⟩ :=
  (C2_available_budgets_fallback (Except.error ()) (Except.ok none)
      [⟨"7", some [0], 250⟩] "7" ⟨"7", some [0], 250⟩
      (Or.inl rfl) (Or.inr rfl) (by decide)
      (by simp)).1

namespace BudgetHandler

/-- The limits dictionary `get_budget_limits` hands back to the handler, as
a key/value list so that Python dict truthiness (non-emptiness) is visible:
it always carries exactly the two keys `total_limit` and `current_limit`. -/
def limits_dict (r : FireflyBudget.BudgetLimits) : List (String × ℚ) :=
  [("total_limit", r.total_limit), ("current_limit", r.current_limit)]

/-- The two responses `BudgetHandler._get_specific_budget` can produce: a
success envelope with the limits dictionary, or the NotFound error
envelope. -/
inductive BudgetResponse
  | success (limits : List (String × ℚ))
  | notFound
deriving DecidableEq

/-- `BudgetHandler._get_specific_budget`: call `get_budget_limits` and test
the returned dictionary with Python truthiness (`if result:`); a truthy
(non-empty) dictionary is wrapped in a success envelope with HTTP 200, a
falsy one in the NotFound envelope with HTTP 404. -/
def get_specific_budget (outcomes : List FireflyBudget.StratOutcome) :
    BudgetResponse × Nat :=
  let result := limits_dict (FireflyBudget.get_budget_limits outcomes)
  if result.isEmpty then (BudgetResponse.notFound, 404)
  else (BudgetResponse.success result, 200)

end BudgetHandler

/-- C5 counterexample: with every limit strategy raising, the limit result is
the zero dictionary, yet the handler answers 200 with a success envelope —
not the 404 NotFound envelope the claim requires for a zero limit result. -/
theorem C5_counterexample_zero_limit_is_200 :
    FireflyBudget.get_budget_limits
        [Except.error (), Except.error (), Except.error ()] = ⟨0, 0⟩ ∧
    BudgetHandler.get_specific_budget
        [Except.error (), Except.error (), Except.error ()] =
      (BudgetHandler.BudgetResponse.success
        [("total_limit", 0), ("current_limit", 0)], 200) ∧
    (200 : Nat) ≠ 404 := by
  refine ⟨rfl, ?_, by norm_num⟩
  rfl

/-- C5 amended: `_get_specific_budget` answers 404 only when the limits
dictionary is falsy (empty), and `get_budget_limits` always returns the
two-key dictionary, so every budget query with a `budget_id` — zero limit
result included — is answered 200 with a success envelope around that
dictionary; a positive limit result is in particular answered 200. -/
theorem C5_specific_budget_always_200
    (outcomes : List FireflyBudget.StratOutcome) :
    BudgetHandler.get_specific_budget outcomes =
      (BudgetHandler.BudgetResponse.success
        (BudgetHandler.limits_dict (FireflyBudget.get_budget_limits outcomes)),
       200) := by
  rw [BudgetHandler.get_specific_budget]
  rfl

/-- C3: when every strategy either raises or yields no strictly positive
`total_limit`, `get_budget_limits` returns the zero-limits dictionary; the
per-strategy try/except means no exception escapes to the caller, which the
embedding reflects by `get_budget_limits` being total over `Except`-valued
strategy outcomes. -/
theorem C3_all_strategies_exhausted
    (s1 s2 s3 : FireflyBudget.StratOutcome)
    (h1 : FireflyBudget.stratFails s1) (h2 : FireflyBudget.stratFails s2)
    (h3 : FireflyBudget.stratFails s3) :
    FireflyBudget.get_budget_limits [s1, s2, s3] = ⟨0, 0⟩ := by
  rw [FireflyBudget.get_budget_limits_skip s1 _ h1,
    FireflyBudget.get_budget_limits_skip s2 _ h2,
    FireflyBudget.get_budget_limits_skip s3 _ h3]
  rfl

/-- Witness for C3: an exception, a `None` result and a zero-limit
dictionary exhaust into the zero-limits result. -/
theorem C3_all_strategies_exhausted_witness :
    FireflyBudget.get_budget_limits
        [Except.error (), Except.ok none, Except.ok (some ⟨0, 5⟩)] =
      ⟨0, 0⟩ :=
  C3_all_strategies_exhausted (Except.error ()) (Except.ok none)
    (Except.ok (some ⟨0, 5⟩)) trivial trivial (by norm_num [FireflyBudget.stratFails])

namespace FireflyTransactions

/-- A value stored in a Python query-parameter dictionary: the parsed query
parameters are strings, while the injected `page` and `limit` entries are
integers. -/
inductive PVal
  | s (v : String)
  | n (v : Nat)
deriving DecidableEq

/-- A Python dict, as an insertion-ordered key/value list whose keys are kept
unique by `dict_set`. -/
abbrev Dict : Type := List (String × PVal)

/-- Python dict item lookup. -/
def dict_get (d : Dict) (k : String) : Option PVal :=
  match d with
  | [] => none
  | (k', v) :: rest => if k' = k then some v else dict_get rest k

/-- Python dict item assignment: overwrite the entry in place when the key
exists, otherwise append the new entry in insertion order. -/
def dict_set (d : Dict) (k : String) (v : PVal) : Dict :=
  if d.any (fun p => p.1 == k) then
    d.map (fun p => if p.1 = k then (k, v) else p)
  else d ++ [(k, v)]

/-- Assigning one key leaves the lookup of every other key unchanged. -/
theorem dict_get_set_ne (d : Dict) (k k' : String) (v : PVal) (h : k' ≠ k) :
    dict_get (dict_set d k' v) k = dict_get d k := by
  rw [dict_set]
  by_cases hany : d.any (fun p => p.1 == k') = true
  · rw [if_pos hany]
    clear hany
    induction d with
    | nil => rfl
    | cons a rest ih =>
      by_cases ha : a.1 = k'
      · have hak : a.1 ≠ k := fun hk => h (ha ▸ hk)
        simp only [List.map_cons]
        rw [if_pos ha]
        simp [dict_get, h, hak, ih]
      · simp only [List.map_cons, if_neg ha]
        by_cases hk : a.1 = k
        · simp [dict_get, hk]
        · simp [dict_get, hk, ih]
  · rw [if_neg hany]
    clear hany
    induction d with
    | nil => simp [dict_get, h]
    | cons a rest ih =>
      by_cases ha : a.1 = k
      · simp [dict_get, ha]
      · simp [dict_get, ha, ih]

/-- A key that looks up to nothing is reported absent by `List.any`. -/
theorem dict_any_eq_false_of_get_none (d : Dict) (k : String)
    (h : dict_get d k = none) : d.any (fun p => p.1 == k) = false := by
  induction d with
  | nil => rfl
  | cons a rest ih =>
    rw [dict_get] at h
    by_cases ha : a.1 = k
    · rw [if_pos ha] at h; cases h
    · rw [if_neg ha] at h
      simp [List.any_cons, ha, ih h]

/-- Assigning an absent key makes it look up to the assigned value. -/
theorem dict_get_set_absent (d : Dict) (k : String) (v : PVal)
    (h : dict_get d k = none) : dict_get (dict_set d k v) k = some v := by
  rw [dict_set, dict_any_eq_false_of_get_none d k h]
  simp only [Bool.false_eq_true, if_false]
  induction d with
  | nil => simp [dict_get]
  | cons a rest ih =>
    rw [dict_get] at h
    by_cases ha : a.1 = k
    · rw [if_pos ha] at h; cases h
    · rw [if_neg ha] at h
      rw [List.cons_append, dict_get, if_neg ha, ih h]

/-- `FireflyService.get_transactions` page-request parameters: a copy of the
caller's query with `page` set to the current page number and `limit` set to
200; no key of the caller's query — the `category` key included — is
removed. -/
def build_page_params (params : Dict) (page : Nat) : Dict :=
  dict_set (dict_set params "page" (PVal.n page)) "limit" (PVal.n 200)

/-- One split of a Firefly transaction, reduced to the field the category
filter reads; the remaining reads (`date`, `description`, `amount`) only
feed debug logging. -/
structure TransactionSplit where
  category_name : Option String
deriving DecidableEq

/-- One transaction of the accumulated `/transactions` data: `none`
attributes models an entry that is not a dict with an `attributes` key. -/
structure FFTransaction where
  attributes : Option (List TransactionSplit)
deriving DecidableEq

/-- `split.get('category_name', 'NO_CATEGORY')`. -/
def split_category (s : TransactionSplit) : String :=
  s.category_name.getD "NO_CATEGORY"

/-- The filter predicate of `get_transactions`: the transaction carries an
`attributes` dict and at least one split's category name equals the
filter value. -/
def transaction_has_category (cat : String) (t : FFTransaction) : Bool :=
  match t.attributes with
  | some splits => splits.any (fun s => split_category s == cat)
  | none => false

/-- The client-side category post-filter of `get_transactions`: applied only
when the query holds a truthy `category` value (a non-empty string or a
non-zero number); a numeric filter value never equals a split's string
category name, so it keeps nothing. -/
def filter_by_category (query : Dict) (fetched : List FFTransaction) :
    List FFTransaction :=
  match dict_get query "category" with
  | some (PVal.s cat) =>
    if cat = "" then fetched
    else fetched.filter (transaction_has_category cat)
  | some (PVal.n k) =>
    if k = 0 then fetched else fetched.filter (fun _ => false)
  | none => fetched

/-- The success result of `get_transactions`. -/
structure TransactionsResult where
  success : Bool
  data : List FFTransaction
  filtered_count : Nat
deriving DecidableEq

/-- `FireflyService.get_transactions` on the success path, parametrised by
the list `fetched` of transactions its pagination loop accumulated from the
`/transactions` pages (each requested with `build_page_params`): the
returned data is the category-filtered list, with its length as
`filtered_count`. -/
def get_transactions (query : Dict) (fetched : List FFTransaction) :
    TransactionsResult :=
  let filtered := filter_by_category query fetched
  ⟨true, filtered, filtered.length⟩

/-- `DifyHandler._handle_transactions_request` query preparation: inject
`type=withdrawal,deposit` when the parsed query has no `type` key, leave an
explicit `type` untouched. -/
def handle_transactions_query (query_params : Dict) : Dict :=
  if (dict_get query_params "type").isNone then
    dict_set query_params "type" (PVal.s "withdrawal,deposit")
  else query_params

end FireflyTransactions

namespace RequestModels

end RequestModels

namespace RetryDecorator

/-- The retry loop of `retry_on_failure`, observed through the attempt
outcomes `f` (call number to raised exception or returned value).  The
result records how many times the wrapped function was invoked, the
durations slept between consecutive attempts, and the final outcome —
`Except.error (some e)` for re-raising the exception `e` of the last
attempt (`Except.error none` is `raise None` when the loop body never
ran). -/
def retryGo {E A : Type} (f : Nat → Except E A) (d : ℚ) :
    Nat → Nat → Nat × List ℚ × Except (Option E) A
  | _, 0 => (0, [], Except.error none)
  | attempt, r + 1 =>
    match f attempt with
    | Except.ok v => (1, [], Except.ok v)
    | Except.error e =>
      match r with
      | 0 => (1, [], Except.error (some e))
      | _ + 1 =>
        let rest := retryGo f d (attempt + 1) r
        (rest.1 + 1, d * 2 ^ attempt :: rest.2.1, rest.2.2)

/-- The wrapper produced by `retry_on_failure(max_attempts, delay)` applied
to a call whose successive attempts behave as `f`. -/
def retry_on_failure {E A : Type} (f : Nat → Except E A)
    (max_attempts : Nat) (d : ℚ) : Nat × List ℚ × Except (Option E) A :=
  retryGo f d 0 max_attempts

/-- When every attempt in the window fails, the loop runs all of them,
sleeps the exponential backoff between consecutive attempts, and re-raises
the last exception. -/
theorem retryGo_all_fail {E A : Type} (f : Nat → Except E A) (d : ℚ)
    (a r : Nat) (hr : 0 < r)
    (hf : ∀ n, a ≤ n → n < a + r → ∃ e, f n = Except.error e) :
    ∃ e, f (a + r - 1) = Except.error e ∧
      retryGo f d a r =
        (r, (List.range' a (r - 1)).map (fun i => d * 2 ^ i),
         Except.error (some e)) := by
  induction r generalizing a with
  | zero => exact absurd hr (lt_irrefl 0)
  | succ r ih =>
    obtain ⟨e, he⟩ := hf a (le_refl a) (by omega)
    cases r with
    | zero =>
      refine ⟨e, by simpa using he, ?_⟩
      simp [retryGo, he]
    | succ r' =>
      obtain ⟨e', he', heq⟩ := ih (a + 1) (Nat.succ_pos r')
        (fun n h1 h2 => hf n (by omega) (by omega))
      refine ⟨e', ?_, ?_⟩
      · have : a + (r' + 1 + 1) - 1 = a + 1 + (r' + 1) - 1 := by omega
        rw [this]; exact he'
      · rw [show retryGo f d a (r' + 1 + 1) =
            (let rest := retryGo f d (a + 1) (r' + 1)
             (rest.1 + 1, d * 2 ^ a :: rest.2.1, rest.2.2)) by
          simp [retryGo, he]]
        rw [heq]
        simp only [Nat.add_sub_cancel]
        rw [List.range'_succ, List.map_cons]

/-- When attempt `k` in the window succeeds after `k` failures, the loop
stops there with its value, having invoked the function `k + 1` times. -/
theorem retryGo_success {E A : Type} (f : Nat → Except E A) (d : ℚ)
    (a r k : Nat) (v : A) (hk : k < r) (hv : f (a + k) = Except.ok v)
    (hfail : ∀ j, a ≤ j → j < a + k → ∃ e, f j = Except.error e) :
    retryGo f d a r =
      (k + 1, (List.range' a k).map (fun i => d * 2 ^ i), Except.ok v) := by
  induction k generalizing a r with
  | zero =>
    cases r with
    | zero => exact absurd hk (lt_irrefl 0)
    | succ r' =>
      simp only [Nat.add_zero] at hv
      simp [retryGo, hv]
  | succ k ih =>
    cases r with
    | zero => exact absurd hk (Nat.not_lt_zero _)
    | succ r' =>
      obtain ⟨e, he⟩ := hfail a (le_refl a) (by omega)
      have hr' : k < r' := by omega
      have hrec := ih (a + 1) r' hr'
        (by rw [show a + 1 + k = a + (k + 1) by omega]; exact hv)
        (fun j h1 h2 => hfail j (by omega) (by omega))
      have hr'pos : 0 < r' := by omega
      obtain ⟨r'', hr''⟩ := Nat.exists_eq_succ_of_ne_zero (Nat.pos_iff_ne_zero.mp hr'pos)
      subst hr''
      rw [show retryGo f d a (r'' + 1 + 1) =
          (let rest := retryGo f d (a + 1) (r'' + 1)
           (rest.1 + 1, d * 2 ^ a :: rest.2.1, rest.2.2)) by
        simp [retryGo, he]]
      rw [hrec]
      rw [List.range'_succ, List.map_cons]

end RetryDecorator

/-- C8: a wrapped call whose every attempt raises a retryable exception is
invoked exactly `max_attempts` times, with sleeps of `delay * 2 ^ attempt`
between consecutive attempts, and the exception of the last attempt is
re-raised; a call whose attempt `k` succeeds is invoked exactly `k + 1`
times and its value returned. -/
theorem C8_retry_exhaustion_and_success {E A : Type} (max_attempts : Nat)
    (d : ℚ) (h : 0 < max_attempts) :
    (∀ f : Nat → Except E A,
      (∀ n, n < max_attempts → ∃ e, f n = Except.error e) →
      ∃ e, f (max_attempts - 1) = Except.error e ∧
        RetryDecorator.retry_on_failure f max_attempts d =
          (max_attempts,
           (List.range (max_attempts - 1)).map (fun i => d * 2 ^ i),
           Except.error (some e))) ∧
    (∀ (f : Nat → Except E A) (k : Nat) (v : A), k < max_attempts →
      f k = Except.ok v → (∀ j, j < k → ∃ e, f j = Except.error e) →
      RetryDecorator.retry_on_failure f max_attempts d =
        (k + 1, (List.range k).map (fun i => d * 2 ^ i), Except.ok v)) := by
  constructor
  · intro f hf
    obtain ⟨e, he, heq⟩ := RetryDecorator.retryGo_all_fail f d 0 max_attempts
      h (fun n _ hn => hf n (by omega))
    refine ⟨e, by simpa using he, ?_⟩
    rw [RetryDecorator.retry_on_failure, heq, List.range_eq_range']
  · intro f k v hk hv hfail
    rw [RetryDecorator.retry_on_failure,
      RetryDecorator.retryGo_success f d 0 max_attempts k v hk
        (by simpa using hv) (fun j _ hj => hfail j (by omega)),
      List.range_eq_range']

/-- Witness for C8: three attempts, unit delay, an always-raising call — it
runs three times, sleeps 1 then 2, and re-raises. -/
theorem C8_retry_exhaustion_and_success_witness :
    ∃ e, (fun _ => (Except.error 0 : Except Nat Nat)) (3 - 1)
        = Except.error e ∧
      RetryDecorator.retry_on_failure
          (fun _ => (Except.error 0 : Except Nat Nat)) 3 1 =
        (3, (List.range (3 - 1)).map (fun i => (1 : ℚ) * 2 ^ i),
         Except.error (some e)) :=
  (C8_retry_exhaustion_and_success 3 1 (by norm_num)).1
    (fun _ => Except.error 0) (fun n _ => ⟨0, rfl⟩)

namespace Scheduler

/-- The fields of a `datetime` value the scheduler reads: the calendar date
and the wall-clock hour and minute. -/
structure SchedDateTime where
  year : Nat
  month : Nat
  day : Nat
  hour : Nat
  minute : Nat
deriving DecidableEq

/-- `datetime.date()`: the calendar-date component. -/
def dateOf (t : SchedDateTime) : Nat × Nat × Nat := (t.year, t.month, t.day)

/-- Day ordinal of a calendar date (days since 0000-03-01, civil-calendar
algorithm), used to model `datetime` date arithmetic for years from 1. -/
def civilDays (y m d : Nat) : Nat :=
  let y' := if m ≤ 2 then y - 1 else y
  let era := y' / 400
  let yoe := y' - era * 400
  let mp := if m > 2 then m - 3 else m + 9
  let doy := (153 * mp + 2) / 5 + d - 1
  let doe := yoe * 365 + yoe / 4 - yoe / 100 + doy
  era * 146097 + doe

/-- Python `date.weekday()` (Monday is 0): calibrated so 1970-01-01 maps
to 3, Thursday. -/
def pyWeekday (t : SchedDateTime) : Nat :=
  (civilDays t.year t.month t.day + 2) % 7

/-- The Monday of a date's week: `date - timedelta(days=date.weekday())`,
compared by ordinal. -/
def mondayOrdinal (t : SchedDateTime) : Nat :=
  civilDays t.year t.month t.day - pyWeekday t

/-- `SchedulerService._same_week`: both dates share the same Monday. -/
def same_week (t1 t2 : SchedDateTime) : Bool :=
  mondayOrdinal t1 == mondayOrdinal t2

/-- `SchedulerService._should_execute_task`: fire only when hour and minute
match the target exactly, and not when the last-executed map already
records a firing in the same period — same calendar date for daily, same
Monday for weekly, same year and month for monthly, same year for
yearly. -/
def should_execute_task (last_check_time : String → Option SchedDateTime)
    (task_key : String) (current : SchedDateTime) (target : Nat × Nat)
    (report_type : String) : Bool :=
  if ¬ (current.hour = target.1 ∧ current.minute = target.2) then false
  else
    match last_check_time task_key with
    | some last =>
      if report_type = "daily" then
        if dateOf last = dateOf current then false else true
      else if report_type = "weekly" then
        if same_week last current then false else true
      else if report_type = "monthly" then
        if last.year = current.year ∧ last.month = current.month then false
        else true
      else if report_type = "yearly" then
        if last.year = current.year then false else true
      else true
    | none => true

end Scheduler

/-- C9: for a `{user}_daily` task key whose last-executed map records a
firing with the same calendar date as the current time, the should-execute
check returns false — for every current hour and minute, the configured
report time included. -/
theorem C9_daily_once_per_date
    (m : String → Option Scheduler.SchedDateTime) (user : String)
    (last current : Scheduler.SchedDateTime) (target : Nat × Nat)
    (hrec : m (user ++ "_daily") = some last)
    (hdate : Scheduler.dateOf last = Scheduler.dateOf current) :
    Scheduler.should_execute_task m (user ++ "_daily") current target "daily"
      = false := by
  rw [Scheduler.should_execute_task, hrec]
  by_cases htm : (current.hour = target.1 ∧ current.minute = target.2)
  · simp [htm, hdate]
  · simp [htm]

/-- Witness for C9: the report time 09:00 was fired at 09:00 on 2025-10-12,
and a second check later the same day at exactly 09:00 stays false. -/
theorem C9_daily_once_per_date_witness :
    Scheduler.should_execute_task
      (fun _ => some ⟨2025, 10, 12, 9, 0⟩) ("alice" ++ "_daily")
      ⟨2025, 10, 12, 9, 0⟩ (9, 0) "daily" = false :=
  C9_daily_once_per_date (fun _ => some ⟨2025, 10, 12, 9, 0⟩) "alice"
    ⟨2025, 10, 12, 9, 0⟩ ⟨2025, 10, 12, 9, 0⟩ (9, 0) rfl rfl

/-- C4 counterexample: for the query holding only `category = Food`, the
parameters sent with the first `/transactions` page request still contain
the `category` entry — the claim that the category parameter is not
forwarded to the Ledger API is false. -/
theorem C4_counterexample_category_is_forwarded :
    FireflyTransactions.dict_get
        (FireflyTransactions.build_page_params
          [("category", FireflyTransactions.PVal.s "Food")] 1) "category" =
      some (FireflyTransactions.PVal.s "Food") ∧
    FireflyTransactions.dict_get
        (FireflyTransactions.build_page_params
          [("category", FireflyTransactions.PVal.s "Food")] 1) "category" ≠
      none := by
  constructor
  · rfl
  · intro h; cases h

/-- C4 amended: for every query whose `category` value is a non-empty
string, `get_transactions` forwards the category parameter unchanged in its
`/transactions` page requests, and its returned data is exactly the fetched
transactions having at least one split whose category name — the
`NO_CATEGORY` default standing in for an absent one — equals the category
value; for a category value other than that default sentinel this is
exactly the transactions with a split whose `category_name` equals the
value. -/
theorem C4_category_filtering
    (q : FireflyTransactions.Dict) (cat : String) (page : Nat)
    (fetched : List FireflyTransactions.FFTransaction)
    (hq : FireflyTransactions.dict_get q "category" =
      some (FireflyTransactions.PVal.s cat))
    (hne : cat ≠ "") :
    FireflyTransactions.dict_get
        (FireflyTransactions.build_page_params q page) "category" =
      some (FireflyTransactions.PVal.s cat) ∧
    (FireflyTransactions.get_transactions q fetched).data =
      fetched.filter (FireflyTransactions.transaction_has_category cat) ∧
    (cat ≠ "NO_CATEGORY" → ∀ t,
      (t ∈ (FireflyTransactions.get_transactions q fetched).data ↔
        t ∈ fetched ∧ ∃ s ∈ t.attributes.getD [],
          s.category_name = some cat)) := by
  refine ⟨?_, ?_, ?_⟩
  · rw [FireflyTransactions.build_page_params,
      FireflyTransactions.dict_get_set_ne _ _ _ _ (by decide),
      FireflyTransactions.dict_get_set_ne _ _ _ _ (by decide), hq]
  · simp [FireflyTransactions.get_transactions,
      FireflyTransactions.filter_by_category, hq, hne]
  · intro hncat t
    simp only [FireflyTransactions.get_transactions,
      FireflyTransactions.filter_by_category, hq, if_neg hne,
      List.mem_filter]
    constructor
    · rintro ⟨hmem, hhas⟩
      refine ⟨hmem, ?_⟩
      rw [FireflyTransactions.transaction_has_category] at hhas
      cases hattr : t.attributes with
      | none => rw [hattr] at hhas; cases hhas
      | some splits =>
        rw [hattr] at hhas
        rw [List.any_eq_true] at hhas
        obtain ⟨s, hs, heq⟩ := hhas
        rw [beq_iff_eq] at heq
        refine ⟨s, by simp [hattr, hs], ?_⟩
        rw [FireflyTransactions.split_category] at heq
        cases hcn : s.category_name with
        | none => rw [hcn] at heq; exact absurd heq.symm hncat
        | some c => rw [hcn] at heq; simp only [Option.getD] at heq; simp [heq]
    · rintro ⟨hmem, s, hs, hsc⟩
      refine ⟨hmem, ?_⟩
      rw [FireflyTransactions.transaction_has_category]
      cases hattr : t.attributes with
      | none => rw [hattr] at hs; simp at hs
      | some splits =>
        rw [hattr] at hs
        simp only [Option.getD] at hs
        rw [List.any_eq_true]
        exact ⟨s, hs, by simp [FireflyTransactions.split_category, hsc]⟩

/-- Witness for C4 amended at concrete inputs: a one-entry query and a
two-transaction fetch, of which only the first matches. -/
theorem C4_category_filtering_witness :
    FireflyTransactions.dict_get
        (FireflyTransactions.build_page_params
          [("category", FireflyTransactions.PVal.s "Food")] 2) "category" =
      some (FireflyTransactions.PVal.s "Food") :=
  (C4_category_filtering [("category", FireflyTransactions.PVal.s "Food")]
      "Food" 2 [⟨some [⟨some "Food"⟩]⟩, ⟨none⟩] rfl (by decide)).1

/-- C6: the AI-webhook transactions path injects `type=withdrawal,deposit`
into a parsed query that has no `type` key — without touching the other
entries — and leaves a query with an explicit `type` completely
unchanged. -/
theorem C6_type_injection (q : FireflyTransactions.Dict) :
    (FireflyTransactions.dict_get q "type" = none →
      FireflyTransactions.dict_get
          (FireflyTransactions.handle_transactions_query q) "type" =
        some (FireflyTransactions.PVal.s "withdrawal,deposit") ∧
      ∀ k, k ≠ "type" →
        FireflyTransactions.dict_get
            (FireflyTransactions.handle_transactions_query q) k =
          FireflyTransactions.dict_get q k) ∧
    (∀ v, FireflyTransactions.dict_get q "type" = some v →
      FireflyTransactions.handle_transactions_query q = q) := by
  constructor
  · intro hnone
    rw [FireflyTransactions.handle_transactions_query, hnone]
    simp only [Option.isNone_none, if_true]
    exact ⟨FireflyTransactions.dict_get_set_absent q "type" _ hnone,
      fun k hk => FireflyTransactions.dict_get_set_ne q k "type" _
        (fun hkt => hk hkt.symm)⟩
  · intro v hv
    rw [FireflyTransactions.handle_transactions_query, hv]
    rfl

/-- Witness for C6: a query with only a start date gets the default type
injected. -/
theorem C6_type_injection_witness :
    FireflyTransactions.dict_get
        (FireflyTransactions.handle_transactions_query
          [("start", FireflyTransactions.PVal.s "2025-01-01")]) "type" =
      some (FireflyTransactions.PVal.s "withdrawal,deposit") :=
  ((C6_type_injection [("start", FireflyTransactions.PVal.s "2025-01-01")]).1
    rfl).1
